import Mathlib

/-!
A formal model of the mygallery video analysis UI (a React app around a
generative-model RPC). The embedding translates the three source files:

* the main App component (mode selection, generation request handling,
  capability dispatch, video drop handling),
* api.ts (the upload/poll state machine around the file RPC), and
* VideoPlayer.tsx (time formatting and the active-caption computation).

Asynchronous control flow is modelled by splitting each async function at its
await points: the segment before an await and the continuation after it are
separate pure transitions on an explicit state record, and interleavings are
explicit event lists. JS numbers are modelled as rationals, JS strings as
Lean strings, and absent/undefined fields as Option.
-/

namespace MyGallery

/-! ### Characters and small string helpers -/

/-- The backslash character, written by code point to keep escapes out of the text. -/
def backslashChar : Char := Char.ofNat 92

/-- The single quote character, written by code point. -/
def quoteChar : Char := Char.ofNat 39

/-- One left-to-right pass replacing each backslash-quote pair by a bare quote:
the model of the JS global-regex replace used on incoming `text` fields. -/
def unescapeChars : List Char → List Char
  | [] => []
  | [c] => [c]
  | c :: d :: rest =>
    if c = backslashChar ∧ d = quoteChar then d :: unescapeChars rest
    else c :: unescapeChars (d :: rest)

/-- String form of `unescapeChars`. -/
def unescapeQuotes (s : String) : String := String.mk (unescapeChars s.data)

/-- Split a character list on a separator character (like `String.split` in JS:
`splitCh c s` always returns at least one, possibly empty, group). -/
def splitCh (sep : Char) : List Char → List (List Char)
  | [] => [[]]
  | c :: cs =>
    match splitCh sep cs with
    | [] => if c = sep then [[], []] else [[c]]
    | g :: gs => if c = sep then [] :: g :: gs else (c :: g) :: gs

/-- Value of a decimal digit character, `none` for a non-digit. -/
def digitVal (c : Char) : Option Nat :=
  if c.isDigit then some (c.toNat - 48) else none

/-- Parse a nonempty all-digit character list as a natural number. -/
def digitsToNat (cs : List Char) : Option Nat :=
  if cs = [] then none
  else cs.foldl
    (fun acc c =>
      match acc, digitVal c with
      | some a, some d => some (a * 10 + d)
      | _, _ => none)
    (some 0)

/-- Modelled from the spec: `timeToSecs` lives in src/utils.ts, which is not
among the provided sources. Section 4.1 of the spec: split the timestamp on
the colon; the 2-part form `M:SS` and the 3-part form `H:MM:SS` are
supported, each part is parsed as an integer, and the result is the sum of
the parts weighted 1, 60, 3600 from the rightmost. A malformed timestamp
yields the NaN sentinel, modelled as `none` (comparisons against it are
false, as for NaN in JS). -/
def timeToSecs (s : String) : Option Nat :=
  let parts := splitCh ':' s.data
  if parts.length = 2 ∨ parts.length = 3 then
    (parts.mapM digitsToNat).map
      (fun ns => ((ns.reverse.zip [1, 60, 3600]).map (fun pm => pm.1 * pm.2)).sum)
  else none

/-! ### Data model: one timecoded record of model output

The source types it as
`{time: string, text?: string, objects?: string[], value?: number}`
(interface TimecodeEntry in VideoPlayer.tsx). -/

/-- One record of the analysis result list. -/
structure TimecodeEntry where
  time : String
  text : Option String := none
  objects : Option (List String) := none
  value : Option ℚ := none
deriving DecidableEq, Repr

/-! ### api.ts: upload and processing poll state machine

`uploadFile` uploads the blob, then reads the file status and re-polls while
the status is PROCESSING, sleeping 5000 ms between polls, for at most
`maxRetries` retries. A FAILED status throws one error, any other non-ACTIVE
final status throws another; an ACTIVE status returns the `{uri, mimeType}`
handle, with the mimeType falling back to the original file type when the
server field is absent or empty (JS `||`). The status RPC is modelled as a
function from the index of the poll (0-based over `files.get` calls) to the
returned record. -/

/-- Status values returned by the file status RPC; `other` stands for any
string besides PROCESSING, ACTIVE and FAILED. -/
inductive FileStatus where
  | processing
  | active
  | failed
  | other
deriving DecidableEq, Repr

/-- One response of the `files.get` status RPC. -/
structure GetFileResult where
  state : FileStatus
  uri : String := ""
  mimeType : Option String := none
deriving DecidableEq, Repr

/-- Bound on re-polls while the file is still processing (source: `maxRetries = 12`). -/
def maxRetries : Nat := 12

/-- Fixed interval between status polls in milliseconds (source: `setTimeout(resolve, 5000)`). -/
def pollIntervalMs : Nat := 5000

/-- The media handle produced by a successful upload (interface UploadedFileInfo). -/
structure UploadedFileInfo where
  uri : String
  mimeType : String
deriving DecidableEq, Repr

/-- JS `a || b` on an optional string: empty and absent strings are falsy. -/
def jsOr (a : Option String) (b : String) : String :=
  match a with
  | none => b
  | some s => if s = "" then b else s

/-- The poll loop of `uploadFile` with the remaining retry budget made
explicit as fuel (`fuel = maxRetries - retries`). Arguments: the status RPC,
the fuel, the most recent RPC response, and the number of RPC calls made so
far. Returns the final response together with the total number of polls. -/
def pollSteps (get : Nat → GetFileResult) : Nat → GetFileResult → Nat → GetFileResult × Nat
  | 0, cur, polls => (cur, polls)
  | fuel + 1, cur, polls =>
    if cur.state = FileStatus.processing then
      pollSteps get fuel (get polls) (polls + 1)
    else (cur, polls)

/-- The whole polling phase: one initial `files.get`, then the retry loop. -/
def pollLoop (get : Nat → GetFileResult) : GetFileResult × Nat :=
  pollSteps get maxRetries (get 0) 1

/-- The two throw sites after the poll loop: a FAILED status, and any other
status that is not ACTIVE (in particular PROCESSING after the retry budget is
spent, the processing-timeout case of the spec). -/
inductive UploadFailure where
  | processingFailed
  | didNotBecomeActive
deriving DecidableEq, Repr

/-- Result of `uploadFile` after the upload succeeded: the poll loop followed
by the status checks, returning the media handle on ACTIVE. -/
def uploadFileResult (get : Nat → GetFileResult) (fileType : String) :
    Except UploadFailure UploadedFileInfo :=
  let final := (pollLoop get).1
  if final.state = FileStatus.failed then Except.error UploadFailure.processingFailed
  else if final.state = FileStatus.active then Except.ok ⟨final.uri, jsOr final.mimeType fileType⟩
  else Except.error UploadFailure.didNotBecomeActive

/-! ### App component: reactive state, capability dispatch, orchestration

The reactive state cells of the App component (those the claims are about)
are collected in one record; `setX(v)` in the source is a functional update
here. The chart sub-mode machinery, prompt construction (modes.ts) and the
sidebar/scroll presentation state play no part in any claim and carry no
information relevant to the dispatch or error paths, so they are not fields
of this record. -/

/-- The state cells of the App component used by the modelled operations. -/
structure AppState where
  vidUrl : Option String := none
  file : Option UploadedFileInfo := none
  timecodeList : Option (List TimecodeEntry ) := none
  requestedTimecode : Option ℚ := none
  activeMode : Option String := none
  isLoading : Bool := false
  isLoadingVideo : Bool := false
  videoError : Bool := false
deriving DecidableEq, Repr

/-- One function call of a model response (`{name, args: {timecodes}}`); all
three registered capabilities destructure the `timecodes` array from args. -/
structure FunctionCall where
  name : String
  timecodes : List TimecodeEntry
deriving DecidableEq, Repr

/-- A model response: an optional list of function calls and optional text. -/
structure GenResponse where
  functionCalls : List FunctionCall := []
  text : Option String := none
deriving DecidableEq, Repr

/-- Outcome of the awaited `generateContent` RPC: a response, or a thrown
transport/model error (caught by the catch block). -/
inductive GenOutcome where
  | ok (resp : GenResponse)
  | error
deriving DecidableEq, Repr

/-- Console events emitted on the response path of `onModeSelect`. -/
inductive LogEvent where
  | unknownCapability (name : String)
  | generationFailed
  | modelText (t : String)
deriving DecidableEq, Repr

/-- JS truthiness test of `t.text` followed by the quote unescape:
`t.text ? t.text.replace(...) : ''` (undefined and the empty string are
falsy). -/
def cleanText : Option String → String
  | none => ""
  | some s => if s = "" then "" else unescapeQuotes s

/-- The `setTimecodes` handler registered for the `set_timecodes` and
`set_timecodes_with_objects` capabilities: store the payload with every
`text` field forced to a (possibly empty) unescaped string. -/
def setTimecodes (timecodes : List TimecodeEntry ) : List TimecodeEntry :=
  timecodes.map (fun t => { t with text := some (cleanText t.text) })

/-- The body of `onModeSelect(mode)` after the `generateContent` await,
together with its synchronous prefix. Returns the new state, whether a
generation request was issued, and the console events. Control flow of the
source: an early return setting the error flag when no file handle exists;
otherwise set the active mode and the loading flag, issue the request, then
on a response dispatch the first function call through the capability map
(`set_timecodes` and `set_timecodes_with_objects` share `setTimecodes`,
`set_timecodes_with_numeric_values` stores its payload as is, an unknown
name is logged and ignored), on a text-only response log the text, on a
thrown error log it; finally clear the loading flag. -/
def onModeSelect (st : AppState) (mode : String) (outcome : GenOutcome) :
    AppState × Bool × List LogEvent :=
  match st.file with
  | none => ({ st with videoError := true }, false, [])
  | some _ =>
    let st1 := { st with activeMode := some mode, isLoading := true }
    let handled : AppState × List LogEvent :=
      match outcome with
      | GenOutcome.error => (st1, [LogEvent.generationFailed])
      | GenOutcome.ok resp =>
        match resp.functionCalls.head? with
        | some call =>
          if call.name = "set_timecodes" ∨ call.name = "set_timecodes_with_objects" then
            ({ st1 with timecodeList := some (setTimecodes call.timecodes) }, [])
          else if call.name = "set_timecodes_with_numeric_values" then
            ({ st1 with timecodeList := some call.timecodes }, [])
          else (st1, [LogEvent.unknownCapability call.name])
        | none =>
          match resp.text with
          | some t => (st1, [LogEvent.modelText t])
          | none => (st1, [])
    ({ handled.1 with isLoading := false }, true, handled.2)

/-! ### App component: video drop handling -/

/-- The dropped file as far as the handler inspects it: its MIME type. -/
structure DroppedFile where
  type : String
deriving DecidableEq, Repr

/-- Character-list prefix test (the model of `String.prototype.startsWith`). -/
def isPrefixList : List Char → List Char → Bool
  | [], _ => true
  | _ :: _, [] => false
  | a :: as, b :: bs => a = b && isPrefixList as bs

/-- The drop handler guard `droppedFile.type.startsWith(video-slash)`. -/
def mimeIsVideo (t : String) : Bool := isPrefixList "video/".data t.data

/-- The synchronous segment of `uploadVideo` up to the `uploadFile` await.
Arguments: state, the dropped file (none when the drop carried no file), and
the object URL the browser mints for the preview. Returns the new state and
whether the upload collaborator is invoked (whether the await is reached).
Source control flow: no file, or a non-video MIME type, sets the error flag,
clears the loading flag (and for a non-video file also the previous video
and analysis state) and returns without uploading; a video file clears all
previous state, shows the preview URL and starts the upload. -/
def uploadVideoStart (st : AppState) (dropped : Option DroppedFile) (objUrl : String) :
    AppState × Bool :=
  match dropped with
  | none => ({ st with videoError := true, isLoadingVideo := false }, false)
  | some f =>
    if mimeIsVideo f.type then
      ({ st with
          isLoadingVideo := true, videoError := false, vidUrl := some objUrl,
          file := none, timecodeList := none, activeMode := none,
          requestedTimecode := none }, true)
    else
      ({ st with
          videoError := true, isLoadingVideo := false, vidUrl := none,
          file := none, timecodeList := none, activeMode := none }, false)

/-- How a pending `uploadFile` promise eventually settles. -/
inductive UploadOutcome where
  | success (info : UploadedFileInfo)
  | failure
deriving DecidableEq, Repr

/-- The interleaving state: the App state plus the pending upload promises,
each tagged with the (model-level) session counter of the drop that created
it. The session tag exists only to name a pending promise in an event list;
the source code itself keeps no such identity. -/
structure SessionState where
  app : AppState := {}
  nextSession : Nat := 0
  pending : List (Nat × UploadOutcome) := []
deriving DecidableEq, Repr

/-- One event of an interleaved execution: a drop (running the synchronous
segment of `uploadVideo` and registering the pending upload), or the
settling of the pending upload of an earlier drop (running the continuation
after the await: on success `setFile(info); setIsLoadingVideo(false)`, on
failure the catch block). The continuations run exactly as written in the
source, with no check that their drop session is still the current one. -/
inductive AsyncEvent where
  | drop (f : DroppedFile) (objUrl : String) (outcome : UploadOutcome)
  | settle (sid : Nat)
deriving DecidableEq, Repr

/-- Small-step interpretation of one event. -/
def stepEvent (s : SessionState ) (e : AsyncEvent) : SessionState :=
  match e with
  | AsyncEvent.drop f u out =>
    let r := uploadVideoStart s.app (some f) u
    if r.2 then
      { app := r.1, nextSession := s.nextSession + 1,
        pending := s.pending ++ [(s.nextSession, out)] }
    else { s with app := r.1 }
  | AsyncEvent.settle sid =>
    match s.pending.lookup sid with
    | none => s
    | some out =>
      let rest := s.pending.filter (fun p => p.1 != sid)
      match out with
      | UploadOutcome.success info =>
        { s with app := { s.app with file := some info, isLoadingVideo := false },
                 pending := rest }
      | UploadOutcome.failure =>
        { s with app := { s.app with videoError := true, isLoadingVideo := false,
                                     vidUrl := none, file := none },
                 pending := rest }

/-- Run an event list from the initial state. -/
def runEvents (es : List AsyncEvent) : SessionState :=
  es.foldl stepEvent {}

/-! ### VideoPlayer: time formatting and the active caption -/

/-- Truncation toward zero, the rounding JS uses for the remainder operator. -/
def jsTrunc (q : ℚ) : ℤ := if 0 ≤ q then ⌊q⌋ else ⌈q⌉

/-- JS remainder `a % b`: `a - b * trunc(a / b)`. -/
def jsRem (a b : ℚ) : ℚ := a - b * (jsTrunc (a / b) : ℚ)

/-- JS `padStart(2, zero)`: left-pad with zeros to length two. -/
def padStart2 (s : String) : String :=
  if s.length ≥ 2 then s else String.mk (List.replicate (2 - s.length) '0') ++ s

/-- The `formatTime` helper of VideoPlayer.tsx:
minutes are `Math.floor(t / 60)`, seconds are `Math.floor(t % 60)` padded to
two digits. -/
def formatTime (t : ℚ) : String :=
  toString ⌊t / 60⌋ ++ ":" ++ padStart2 (toString ⌊jsRem t 60⌋)

/-- The spec side of the format claim: the `M:SS` rendering of a whole
number of seconds, minutes unbounded, seconds zero-padded to two digits. -/
def specFormatSeconds (n : Nat) : String :=
  toString (n / 60) ++ ":" ++ padStart2 (toString (n % 60))

/-- The memoised reversed list (`timecodeList.slice().reverse()`). -/
def timecodeListReversed (l : List TimecodeEntry ) : List TimecodeEntry :=
  l.reverse

/-- The find predicate of `updateTime`: parsed entry time at most the current
playback time; a malformed time (NaN) compares false. -/
def qualifies (t : TimecodeEntry ) (currentTime : ℚ) : Bool :=
  match timeToSecs t.time with
  | some n => decide ((n : ℚ) ≤ currentTime)
  | none => false

/-- The active caption computed on `timeupdate`: the `text` of the first
entry of the reversed list whose parsed time is at most the current playback
time, `none` (caption cleared) when no entry qualifies or the found entry
has no text. -/
def currentCaption (l : List TimecodeEntry ) (currentTime : ℚ) : Option String :=
  ((timecodeListReversed l).find? (fun t => qualifies t currentTime)).bind
    (fun t => t.text)

/-! ### Concrete instances used by the verification statements -/

/-- The escaped text of the router example: the characters a, backslash,
quote, b. -/
def c1escaped : String := String.mk [ 'a', backslashChar, quoteChar, 'b']

/-- The unescaped form of `c1escaped`: the characters a, quote, b. -/
def c1unescaped : String := String.mk [ 'a', quoteChar, 'b']

/-- A state with an uploaded media handle, ready for generation. -/
def c1state : AppState := { file := some ⟨"files/vid", "video/mp4"⟩ }

/-- The function call of the router example, through `set_timecodes`. -/
def c1exampleCall : FunctionCall :=
  { name := "set_timecodes", timecodes := [{ time := "0:05", text := some c1escaped }] }

/-- The same escaped payload dispatched through the numeric-values capability. -/
def c1numericCall : FunctionCall :=
  { name := "set_timecodes_with_numeric_values",
    timecodes := [{ time := "0:05", text := some c1escaped, value := some 1 }] }

/-- A state with a request already in flight (`isLoading` true) and a file
present, holding a previous (empty) result list. -/
def c2state : AppState :=
  { file := some ⟨"files/vid", "video/mp4"⟩, isLoading := true, timecodeList := some [] }

/-- A successful response arriving for the second, in-flight call. -/
def c2resp : GenOutcome :=
  GenOutcome.ok
    { functionCalls := [{ name := "set_timecodes",
                          timecodes := [{ time := "0:01", text := some "x" }] }] }

/-- A state with a file, a previous result list and no error shown. -/
def c3state : AppState :=
  { file := some ⟨"files/vid", "video/mp4"⟩, isLoading := true,
    timecodeList := some [⟨"0:02", some "old", none, none⟩] }

/-- First drop of the stale-upload interleaving. -/
def c4dropOne : AsyncEvent :=
  AsyncEvent.drop ⟨"video/mp4"⟩ "blob:one" (UploadOutcome.success ⟨"files/one", "video/mp4"⟩)

/-- Second drop, superseding the first while its upload is still pending. -/
def c4dropTwo : AsyncEvent :=
  AsyncEvent.drop ⟨"video/webm"⟩ "blob:two" (UploadOutcome.success ⟨"files/two", "video/webm"⟩)

/-- A status RPC answering processing twice and then active. -/
def c5poll : Nat → GetFileResult := fun k =>
  if k < 2 then { state := FileStatus.processing }
  else { state := FileStatus.active, uri := "files/abc", mimeType := some "video/mp4" }

/-- A state with a media handle and a previous result list to be preserved. -/
def c8state : AppState :=
  { file := some ⟨"files/vid", "video/mp4"⟩,
    timecodeList := some [⟨"0:09", some "keep", none, none⟩] }

/-! ### Helper lemmas -/

/-- A loop whose current status is not processing stops at once. -/
theorem pollSteps_of_not_processing (get : Nat → GetFileResult) (fuel : Nat)
    (cur : GetFileResult) (polls : Nat) (h : ¬ cur.state = FileStatus.processing) :
    pollSteps get fuel cur polls = (cur, polls) := by
  cases fuel <;> simp [pollSteps, h]

/-- Under an always-processing status RPC the loop ends still processing. -/
theorem pollSteps_all_processing (get : Nat → GetFileResult)
    (h : ∀ k, (get k).state = FileStatus.processing) :
    ∀ (fuel polls : Nat) (cur : GetFileResult), cur.state = FileStatus.processing →
      ((pollSteps get fuel cur polls).1).state = FileStatus.processing := by
  intro fuel
  induction fuel with
  | zero => intro polls cur hc; simpa [pollSteps] using hc
  | succ f ih =>
    intro polls cur hc
    rw [pollSteps, if_pos hc]
    exact ih (polls + 1) (get polls) (h polls)

/-- If the first `n` statuses are processing and status `n` is not, with
`n` within the retry budget, the loop returns status `n` after `n + 1`
polls. Stated from an intermediate position `j` for the induction. -/
theorem pollSteps_reach (get : Nat → GetFileResult) (n : Nat) (hn : n ≤ maxRetries)
    (hproc : ∀ k, k < n → (get k).state = FileStatus.processing)
    (hstop : ¬ (get n).state = FileStatus.processing) :
    ∀ (d j : Nat), j + d = n →
      pollSteps get (maxRetries - j) (get j) (j + 1) = (get n, n + 1) := by
  intro d
  induction d with
  | zero =>
    intro j hj
    have hjn : j = n := by omega
    subst hjn
    exact pollSteps_of_not_processing get (maxRetries - j) (get j) (j + 1) hstop
  | succ d ih =>
    intro j hj
    have hjlt : j < n := by omega
    have hfuel : maxRetries - j = (maxRetries - (j + 1)) + 1 := by omega
    rw [hfuel, pollSteps, if_pos (hproc j hjlt)]
    exact ih (j + 1) (by omega)

/-- Whole-loop form of `pollSteps_reach`. -/
theorem pollLoop_reach (get : Nat → GetFileResult) (n : Nat) (hn : n ≤ maxRetries)
    (hproc : ∀ k, k < n → (get k).state = FileStatus.processing)
    (hstop : ¬ (get n).state = FileStatus.processing) :
    pollLoop get = (get n, n + 1) := by
  have h := pollSteps_reach get n hn hproc hstop n 0 (by omega)
  simpa [pollLoop] using h

/-- `find?` returns the entry at the first index satisfying the predicate. -/
theorem find_first {α : Type} (p : α → Bool) :
    ∀ (l : List α) (i : Nat) (x : α), l[i]? = some x → p x = true →
      (∀ (j : Nat) (y : α), j < i → l[j]? = some y → p y = false) →
      l.find? p = some x := by
  intro l
  induction l with
  | nil => intro i x hx; simp at hx
  | cons a l ih =>
    intro i x hx hpx hprev
    cases i with
    | zero =>
      simp at hx
      subst hx
      simp [List.find?_cons_of_pos, hpx]
    | succ k =>
      have ha : p a = false := hprev 0 a (Nat.succ_pos k) (by simp)
      rw [List.find?_cons_of_neg _ (by simp [ha])]
      refine ih k x (by simpa using hx) hpx ?_
      intro j y hj hy
      exact hprev (j + 1) y (Nat.succ_lt_succ hj) (by simpa using hy)

/-! ### Claim C5: upload state machine polling -/

/-- C5 (confirmed): the processing poll runs on a fixed 5000 ms interval with
a retry budget of 12; a status sequence processing, processing, active ends
Ready after exactly 3 polls; an always-processing status RPC ends in the
non-active failure (the processing-timeout throw of the source); a failed
status within the budget ends in the processing-failed failure. -/
theorem c5_upload_poll_state_machine :
    pollIntervalMs = 5000 ∧ maxRetries = 12 ∧
    (∀ (get : Nat → GetFileResult) (ft : String),
      (get 0).state = FileStatus.processing →
      (get 1).state = FileStatus.processing →
      (get 2).state = FileStatus.active →
      (pollLoop get).2 = 3 ∧
        uploadFileResult get ft = Except.ok ⟨(get 2).uri, jsOr (get 2).mimeType ft⟩) ∧
    (∀ (get : Nat → GetFileResult) (ft : String),
      (∀ k, (get k).state = FileStatus.processing) →
      uploadFileResult get ft = Except.error UploadFailure.didNotBecomeActive) ∧
    (∀ (get : Nat → GetFileResult) (ft : String) (n : Nat),
      n ≤ maxRetries →
      (∀ k, k < n → (get k).state = FileStatus.processing) →
      (get n).state = FileStatus.failed →
      uploadFileResult get ft = Except.error UploadFailure.processingFailed) := by
  refine ⟨rfl, rfl, ?_, ?_, ?_⟩
  · intro get ft h0 h1 h2
    have hproc : ∀ k, k < 2 → (get k).state = FileStatus.processing := by
      intro k hk
      rcases (by omega : k = 0 ∨ k = 1) with rfl | rfl
      · exact h0
      · exact h1
    have hstop : ¬ (get 2).state = FileStatus.processing := by simp [h2]
    have hpl := pollLoop_reach get 2 (by decide) hproc hstop
    refine ⟨by rw [hpl], ?_⟩
    simp [uploadFileResult, hpl, h2]
  · intro get ft hall
    have h := pollSteps_all_processing get hall maxRetries 1 (get 0) (hall 0)
    simp [uploadFileResult, pollLoop, h]
  · intro get ft n hn hproc hfail
    have hstop : ¬ (get n).state = FileStatus.processing := by simp [hfail]
    have hpl := pollLoop_reach get n hn hproc hstop
    simp [uploadFileResult, hpl, hfail]

/-- Witness for C5: the concrete three-status run evaluated. -/
theorem c5_upload_poll_witness :
    (pollLoop c5poll).2 = 3 ∧
    uploadFileResult c5poll "video/quicktime" = Except.ok ⟨"files/abc", "video/mp4"⟩ := by
  have h := c5_upload_poll_state_machine.2.2.1 c5poll "video/quicktime"
    (by decide) (by decide) (by decide)
  refine ⟨h.1, ?_⟩
  rw [h.2]
  rfl

/-! ### Claim C9: formatTime renders M:SS -/

/-- C9 (confirmed): for every nonnegative number of seconds, `formatTime`
produces the `M:SS` form of the floor of the input — minutes unbounded,
seconds zero-padded to two digits, fractional seconds rounded down — and in
particular maps 90 to 1:30 and 5 to 0:05. -/
theorem c9_format_seconds :
    (∀ t : ℚ, 0 ≤ t → formatTime t = specFormatSeconds ⌊t⌋.toNat) ∧
    formatTime 90 = "1:30" ∧ formatTime 5 = "0:05" := by
  have main : ∀ t : ℚ, 0 ≤ t → formatTime t = specFormatSeconds ⌊t⌋.toNat := by
    intro t ht
    have hq : (0 : ℚ) ≤ t / 60 := div_nonneg ht (by norm_num)
    have htr : jsTrunc (t / 60) = ⌊t / 60⌋ := if_pos hq
    have hfl : ⌊t / 60⌋ = ((⌊t⌋₊ / 60 : ℕ) : ℤ) := by
      rw [← Int.natCast_floor_eq_floor hq, Nat.floor_div_ofNat]
    have hrem : ⌊jsRem t 60⌋ = ((⌊t⌋₊ % 60 : ℕ) : ℤ) := by
      have hcast : (60 : ℚ) * (((⌊t⌋₊ / 60 : ℕ) : ℤ) : ℚ)
          = (((60 * (⌊t⌋₊ / 60) : ℕ) : ℤ) : ℚ) := by
        push_cast
        ring
      rw [jsRem, htr, hfl, hcast, Int.floor_sub_int, ← Int.natCast_floor_eq_floor ht]
      omega
    rw [formatTime, specFormatSeconds, hfl, hrem, Int.floor_toNat]
    rfl
  refine ⟨main, ?_, ?_⟩
  · rw [main 90 (by norm_num), (by norm_num : ⌊(90 : ℚ)⌋ = 90)]
    decide
  · rw [main 5 (by norm_num), (by norm_num : ⌊(5 : ℚ)⌋ = 5)]
    decide

/-- Witness for C9: a fractional input, ninety and a half seconds. -/
theorem c9_format_seconds_witness :
    (0 : ℚ) ≤ 181 / 2 ∧ formatTime (181 / 2) = "1:30" := by
  refine ⟨by norm_num, ?_⟩
  rw [c9_format_seconds.1 (181 / 2) (by norm_num), (by norm_num : ⌊(181 : ℚ) / 2⌋ = 90)]
  decide

/-! ### Claim C6: the active caption -/

/-- C6 (confirmed): the active caption is found by scanning the reversed
list and taking the first entry whose parsed time is at most the current
playback time — the caption is cleared when no entry qualifies, and with
entries at 0:05 and 0:10 in list order, playback time 7 yields the 0:05
text and playback time 12 the 0:10 text. -/
theorem c6_active_caption :
    (∀ (l : List TimecodeEntry ) (ct : ℚ),
      (∀ t, t ∈ l → qualifies t ct = false) → currentCaption l ct = none) ∧
    (∀ (l : List TimecodeEntry ) (ct : ℚ) (i : Nat) (x : TimecodeEntry ),
      (timecodeListReversed l)[i]? = some x → qualifies x ct = true →
      (∀ (j : Nat) (y : TimecodeEntry ), j < i →
        (timecodeListReversed l)[j]? = some y → qualifies y ct = false) →
      currentCaption l ct = x.text) ∧
    currentCaption [⟨"0:05", some "at five", none, none⟩,
                    ⟨"0:10", some "at ten", none, none⟩] 7 = some "at five" ∧
    currentCaption [⟨"0:05", some "at five", none, none⟩,
                    ⟨"0:10", some "at ten", none, none⟩] 12 = some "at ten" := by
  refine ⟨?_, ?_, by decide, by decide⟩
  · intro l ct h
    have hnone : (timecodeListReversed l).find? (fun t => qualifies t ct) = none := by
      rw [List.find?_eq_none]
      intro x hx
      have hxl : x ∈ l := by simpa [timecodeListReversed] using hx
      simp [h x hxl]
    simp [currentCaption, hnone]
  · intro l ct i x hx hqx hprev
    have hsome : (timecodeListReversed l).find? (fun t => qualifies t ct) = some x :=
      find_first (fun t => qualifies t ct) (timecodeListReversed l) i x hx hqx hprev
    simp [currentCaption, hsome]

/-- Witness for C6: no entry qualifies at playback time 3, caption cleared. -/
theorem c6_active_caption_witness :
    currentCaption [⟨"0:10", some "at ten", none, none⟩] 3 = none :=
  c6_active_caption.1 [⟨"0:10", some "at ten", none, none⟩] 3 (by decide)

/-! ### Claim C1: quote unescaping by capability -/

/-- Counterexample for C1: the same escaped text dispatched through the
`set_timecodes_with_numeric_values` capability is stored with the backslash
kept, so the unescape step is not applied uniformly across capabilities. -/
theorem c1_numeric_capability_keeps_escape :
    (onModeSelect c1state "A" (GenOutcome.ok { functionCalls := [c1numericCall] })).1.timecodeList
      = some [{ time := "0:05", text := some c1escaped, value := some 1 }] ∧
    c1escaped ≠ c1unescaped ∧ unescapeQuotes c1escaped = c1unescaped := by
  exact ⟨by decide, by decide, by decide⟩

/-- C1 (corrected): the escaped-quote unescape of `text` fields is applied
by the `set_timecodes` and `set_timecodes_with_objects` capabilities (which
share the `setTimecodes` handler and normalize every entry), not by
`set_timecodes_with_numeric_values`; the cited example through
`set_timecodes` stores time 0:05 with the unescaped text. -/
theorem c1_unescape_on_text_capabilities :
    (∀ (st : AppState) (mode nm : String) (fi : UploadedFileInfo)
      (ts : List TimecodeEntry ),
      st.file = some fi →
      nm = "set_timecodes" ∨ nm = "set_timecodes_with_objects" →
      (onModeSelect st mode
        (GenOutcome.ok { functionCalls := [{ name := nm, timecodes := ts }] })).1.timecodeList
        = some (setTimecodes ts)) ∧
    (∀ (ts : List TimecodeEntry ) (i : Nat) (t : TimecodeEntry ),
      ts[i]? = some t →
      (setTimecodes ts)[i]? = some { t with text := some (cleanText t.text) }) ∧
    (onModeSelect c1state "A" (GenOutcome.ok { functionCalls := [c1exampleCall] })).1.timecodeList
      = some [{ time := "0:05", text := some c1unescaped }] := by
  refine ⟨?_, ?_, by decide⟩
  · intro st mode nm fi ts hf hnm
    rcases st with ⟨vu, stf, tl, rq, am, il, ilv, ve⟩
    have h0 : stf = some fi := hf
    subst h0
    rcases hnm with rfl | rfl <;> rfl
  · intro ts i t h
    simp [setTimecodes, List.getElem?_map, h]

/-- Witness for C1: the first part applied to the example payload. -/
theorem c1_unescape_witness :
    (onModeSelect c1state "A" (GenOutcome.ok { functionCalls := [c1exampleCall] })).1.timecodeList
      = some (setTimecodes [{ time := "0:05", text := some c1escaped }]) :=
  c1_unescape_on_text_capabilities.1 c1state "A" "set_timecodes"
    ⟨"files/vid", "video/mp4"⟩ [{ time := "0:05", text := some c1escaped }]
    rfl (Or.inl rfl)

/-! ### Claim C2: serialization of generation requests -/

/-- Counterexample for C2: with a request already in flight (isLoading true)
and a file present, a second onModeSelect call is not rejected — it issues a
new generation request and replaces the previous timecode list. -/
theorem c2_inflight_second_call_proceeds :
    (onModeSelect c2state "A" c2resp).2.1 = true ∧
    (onModeSelect c2state "A" c2resp).1.timecodeList
      = some [{ time := "0:01", text := some "x" }] ∧
    c2state.isLoading = true ∧ c2state.timecodeList = some [] := by
  exact ⟨by decide, by decide, rfl, rfl⟩

/-- C2 (corrected): `onModeSelect` never checks the in-flight flag; its only
rejection is the missing-file precondition. With no file the call issues no
request and changes nothing but the error flag; with a file present a
request is issued regardless of `isLoading`, so a second call while one is
in flight is not rejected. -/
theorem c2_rejection_only_on_missing_file :
    (∀ (st : AppState) (mode : String) (outcome : GenOutcome),
      st.file = none →
      onModeSelect st mode outcome = ({ st with videoError := true }, false, [])) ∧
    (∀ (st : AppState) (mode : String) (outcome : GenOutcome) (fi : UploadedFileInfo),
      st.file = some fi → (onModeSelect st mode outcome).2.1 = true) := by
  constructor
  · intro st mode outcome h
    rcases st with ⟨vu, stf, tl, rq, am, il, ilv, ve⟩
    have h0 : stf = none := h
    subst h0
    rfl
  · intro st mode outcome fi h
    rcases st with ⟨vu, stf, tl, rq, am, il, ilv, ve⟩
    have h0 : stf = some fi := h
    subst h0
    rfl

/-- Witness for C2: the second conjunct on the in-flight state. -/
theorem c2_rejection_witness :
    (onModeSelect c2state "A" GenOutcome.error).2.1 = true :=
  c2_rejection_only_on_missing_file.2 c2state "A" GenOutcome.error
    ⟨"files/vid", "video/mp4"⟩ rfl

/-! ### Claim C3: generation error handling -/

/-- Counterexample for C3: a generation error leaves the visible error flag
unset (it was false before the call and is still false after), so no visible
error state is set. -/
theorem c3_no_visible_error_flag :
    (onModeSelect c3state "A" GenOutcome.error).1.videoError = false ∧
    c3state.videoError = false := by
  exact ⟨by decide, rfl⟩

/-- C3 (corrected): on a transport/model error the orchestrator leaves the
previous timecode list untouched and clears the loading flag (the finally
block), but sets no visible error state — the error flag is unchanged and
the failure is only logged. -/
theorem c3_error_path_state :
    ∀ (st : AppState) (mode : String) (fi : UploadedFileInfo),
      st.file = some fi →
      (onModeSelect st mode GenOutcome.error).1.videoError = st.videoError ∧
      (onModeSelect st mode GenOutcome.error).1.timecodeList = st.timecodeList ∧
      (onModeSelect st mode GenOutcome.error).1.isLoading = false ∧
      (onModeSelect st mode GenOutcome.error).2.2 = [LogEvent.generationFailed] := by
  intro st mode fi h
  rcases st with ⟨vu, stf, tl, rq, am, il, ilv, ve⟩
  have h0 : stf = some fi := h
  subst h0
  exact ⟨rfl, rfl, rfl, rfl⟩

/-- Witness for C3: the error path evaluated on a concrete state. -/
theorem c3_error_path_witness :
    (onModeSelect c3state "A" GenOutcome.error).1.videoError = c3state.videoError ∧
    (onModeSelect c3state "A" GenOutcome.error).1.timecodeList = c3state.timecodeList ∧
    (onModeSelect c3state "A" GenOutcome.error).1.isLoading = false ∧
    (onModeSelect c3state "A" GenOutcome.error).2.2 = [LogEvent.generationFailed] :=
  c3_error_path_state c3state "A" ⟨"files/vid", "video/mp4"⟩ rfl

/-! ### Claim C4: stale upload resolution -/

/-- Counterexample for C4: drop one, drop two (superseding it), then the
first upload settles. The stale continuation writes the old media handle
into the state of the new session — the app shows the second video URL with
the first file handle and the loading flag cleared, while the second upload
is still pending. -/
theorem c4_stale_upload_overwrites :
    (runEvents [c4dropOne, c4dropTwo, AsyncEvent.settle 0]).app.file
      = some ⟨"files/one", "video/mp4"⟩ ∧
    (runEvents [c4dropOne, c4dropTwo, AsyncEvent.settle 0]).app.vidUrl = some "blob:two" ∧
    (runEvents [c4dropOne, c4dropTwo, AsyncEvent.settle 0]).app.isLoadingVideo = false ∧
    (runEvents [c4dropOne, c4dropTwo, AsyncEvent.settle 0]).pending
      = [(1, UploadOutcome.success ⟨"files/two", "video/webm"⟩)] := by
  exact ⟨by decide, by decide, by decide, by decide⟩

/-- C4 (corrected): the continuation after the `uploadFile` await performs
no session check, so for every such interleaving the stale resolution does
overwrite state belonging to the new session: the file handle becomes the
old upload result and the loading flag is cleared while the new upload is
still pending. -/
theorem c4_stale_settle_semantics :
    ∀ (f1 f2 : DroppedFile) (u1 u2 : String) (i1 i2 : UploadedFileInfo),
      mimeIsVideo f1.type = true → mimeIsVideo f2.type = true →
      (runEvents [AsyncEvent.drop f1 u1 (UploadOutcome.success i1),
                  AsyncEvent.drop f2 u2 (UploadOutcome.success i2),
                  AsyncEvent.settle 0]).app.file = some i1 ∧
      (runEvents [AsyncEvent.drop f1 u1 (UploadOutcome.success i1),
                  AsyncEvent.drop f2 u2 (UploadOutcome.success i2),
                  AsyncEvent.settle 0]).app.vidUrl = some u2 ∧
      (runEvents [AsyncEvent.drop f1 u1 (UploadOutcome.success i1),
                  AsyncEvent.drop f2 u2 (UploadOutcome.success i2),
                  AsyncEvent.settle 0]).app.isLoadingVideo = false ∧
      (runEvents [AsyncEvent.drop f1 u1 (UploadOutcome.success i1),
                  AsyncEvent.drop f2 u2 (UploadOutcome.success i2),
                  AsyncEvent.settle 0]).pending = [(1, UploadOutcome.success i2)] := by
  intro f1 f2 u1 u2 i1 i2 h1 h2
  simp [runEvents, stepEvent, uploadVideoStart, h1, h2, List.lookup]

/-- Witness for C4: the interleaving evaluated on concrete drops. -/
theorem c4_stale_settle_witness :
    (runEvents [AsyncEvent.drop ⟨"video/avi"⟩ "blob:a" (UploadOutcome.success ⟨"files/a", "video/avi"⟩),
                AsyncEvent.drop ⟨"video/ogg"⟩ "blob:b" (UploadOutcome.success ⟨"files/b", "video/ogg"⟩),
                AsyncEvent.settle 0]).app.file = some ⟨"files/a", "video/avi"⟩ ∧
    (runEvents [AsyncEvent.drop ⟨"video/avi"⟩ "blob:a" (UploadOutcome.success ⟨"files/a", "video/avi"⟩),
                AsyncEvent.drop ⟨"video/ogg"⟩ "blob:b" (UploadOutcome.success ⟨"files/b", "video/ogg"⟩),
                AsyncEvent.settle 0]).app.vidUrl = some "blob:b" ∧
    (runEvents [AsyncEvent.drop ⟨"video/avi"⟩ "blob:a" (UploadOutcome.success ⟨"files/a", "video/avi"⟩),
                AsyncEvent.drop ⟨"video/ogg"⟩ "blob:b" (UploadOutcome.success ⟨"files/b", "video/ogg"⟩),
                AsyncEvent.settle 0]).app.isLoadingVideo = false ∧
    (runEvents [AsyncEvent.drop ⟨"video/avi"⟩ "blob:a" (UploadOutcome.success ⟨"files/a", "video/avi"⟩),
                AsyncEvent.drop ⟨"video/ogg"⟩ "blob:b" (UploadOutcome.success ⟨"files/b", "video/ogg"⟩),
                AsyncEvent.settle 0]).pending = [(1, UploadOutcome.success ⟨"files/b", "video/ogg"⟩)] :=
  c4_stale_settle_semantics ⟨"video/avi"⟩ ⟨"video/ogg"⟩ "blob:a" "blob:b"
    ⟨"files/a", "video/avi"⟩ ⟨"files/b", "video/ogg"⟩ (by decide) (by decide)

/-! ### Claim C7: non-video drop -/

/-- C7 (confirmed): a dropped file whose MIME type is not a video type never
reaches the upload collaborator; the handler returns at once with the error
flag set and the loading flag cleared. -/
theorem c7_nonvideo_drop :
    ∀ (st : AppState) (f : DroppedFile) (u : String),
      mimeIsVideo f.type = false →
      (uploadVideoStart st (some f) u).2 = false ∧
      (uploadVideoStart st (some f) u).1.videoError = true ∧
      (uploadVideoStart st (some f) u).1.isLoadingVideo = false := by
  intro st f u h
  simp [uploadVideoStart, h]

/-- Witness for C7: a plain-text drop. -/
theorem c7_nonvideo_drop_witness :
    (uploadVideoStart {} (some ⟨"text/plain"⟩) "blob:x").2 = false ∧
    (uploadVideoStart {} (some ⟨"text/plain"⟩) "blob:x").1.videoError = true ∧
    (uploadVideoStart {} (some ⟨"text/plain"⟩) "blob:x").1.isLoadingVideo = false :=
  c7_nonvideo_drop {} ⟨"text/plain"⟩ "blob:x" (by decide)

/-! ### Claim C8: unknown capability -/

/-- C8 (confirmed): a response whose first function call names a capability
absent from the map is logged and ignored: the previous timecode list and
the error flag are unchanged, the request completes and the loading flag is
cleared. -/
theorem c8_unknown_capability :
    ∀ (st : AppState) (mode nm : String) (fi : UploadedFileInfo)
      (args : List TimecodeEntry ) (txt : Option String),
      st.file = some fi →
      nm ≠ "set_timecodes" → nm ≠ "set_timecodes_with_objects" →
      nm ≠ "set_timecodes_with_numeric_values" →
      (onModeSelect st mode
        (GenOutcome.ok { functionCalls := [{ name := nm, timecodes := args }],
                         text := txt })).1.timecodeList = st.timecodeList ∧
      (onModeSelect st mode
        (GenOutcome.ok { functionCalls := [{ name := nm, timecodes := args }],
                         text := txt })).1.videoError = st.videoError ∧
      (onModeSelect st mode
        (GenOutcome.ok { functionCalls := [{ name := nm, timecodes := args }],
                         text := txt })).2.2 = [LogEvent.unknownCapability nm] ∧
      (onModeSelect st mode
        (GenOutcome.ok { functionCalls := [{ name := nm, timecodes := args }],
                         text := txt })).2.1 = true ∧
      (onModeSelect st mode
        (GenOutcome.ok { functionCalls := [{ name := nm, timecodes := args }],
                         text := txt })).1.isLoading = false := by
  intro st mode nm fi args txt hf h1 h2 h3
  rcases st with ⟨vu, stf, tl, rq, am, il, ilv, ve⟩
  have h0 : stf = some fi := hf
  subst h0
  simp [onModeSelect, h1, h2, h3]

/-- Witness for C8: an unregistered capability name on a concrete state. -/
theorem c8_unknown_capability_witness :
    (onModeSelect c8state "A"
      (GenOutcome.ok { functionCalls := [{ name := "bogus_capability", timecodes := [] }],
                       text := none })).1.timecodeList = c8state.timecodeList ∧
    (onModeSelect c8state "A"
      (GenOutcome.ok { functionCalls := [{ name := "bogus_capability", timecodes := [] }],
                       text := none })).1.videoError = c8state.videoError ∧
    (onModeSelect c8state "A"
      (GenOutcome.ok { functionCalls := [{ name := "bogus_capability", timecodes := [] }],
                       text := none })).2.2 = [LogEvent.unknownCapability "bogus_capability"] ∧
    (onModeSelect c8state "A"
      (GenOutcome.ok { functionCalls := [{ name := "bogus_capability", timecodes := [] }],
                       text := none })).2.1 = true ∧
    (onModeSelect c8state "A"
      (GenOutcome.ok { functionCalls := [{ name := "bogus_capability", timecodes := [] }],
                       text := none })).1.isLoading = false :=
  c8_unknown_capability c8state "A" "bogus_capability" ⟨"files/vid", "video/mp4"⟩ [] none
    rfl (by decide) (by decide) (by decide)

/-! ### Claim C10: text defaulting by handler family -/

/-- C10 (confirmed): every entry stored by the shared `setTimecodes` handler
has a defined string text; an entry arriving with a missing or empty text is
stored with the empty string; the numeric-values capability stores its
payload unchanged, with no such defaulting. -/
theorem c10_text_defaulting :
    (∀ (ts : List TimecodeEntry ) (e : TimecodeEntry ),
      e ∈ setTimecodes ts → ∃ s, e.text = some s) ∧
    (∀ (ts : List TimecodeEntry ) (i : Nat) (t : TimecodeEntry ),
      ts[i]? = some t → t.text = none ∨ t.text = some "" →
      (setTimecodes ts)[i]? = some { t with text := some "" }) ∧
    (∀ (st : AppState) (mode : String) (fi : UploadedFileInfo) (ts : List TimecodeEntry ),
      st.file = some fi →
      (onModeSelect st mode
        (GenOutcome.ok { functionCalls :=
          [{ name := "set_timecodes_with_numeric_values", timecodes := ts }] })).1.timecodeList
        = some ts) := by
  refine ⟨?_, ?_, ?_⟩
  · intro ts e he
    simp [setTimecodes, List.mem_map] at he
    obtain ⟨t, ht, rfl⟩ := he
    exact ⟨cleanText t.text, rfl⟩
  · intro ts i t h htext
    have hmap : (setTimecodes ts)[i]? = some { t with text := some (cleanText t.text) } := by
      simp [setTimecodes, List.getElem?_map, h]
    rcases htext with h0 | h0 <;> rw [hmap] <;> simp [cleanText, h0]
  · intro st mode fi ts hf
    rcases st with ⟨vu, stf, tl, rq, am, il, ilv, ve⟩
    have h0 : stf = some fi := hf
    subst h0
    rfl

/-- Witness for C10: an entry with no text is stored with the empty string. -/
theorem c10_text_defaulting_witness :
    (setTimecodes [{ time := "0:07" }])[0]? = some { time := "0:07", text := some "" } :=
  c10_text_defaulting.2.1 [{ time := "0:07" }] 0 { time := "0:07" } rfl (Or.inl rfl)

end MyGallery
